import Mathlib

/-!
Verification of the archived `Duration` implementation and the surrounding
serialization contract of the rkyv repository slice.

The shallow embedding below mirrors `src/rkyv/src/impls/core/time.rs`
(`ArchivedDuration`, its accessors, and the `Archive`/`Serialize`/`Deserialize`
implementations for `core::time::Duration`), the endianness feature check in
`src/rkyv/src/lib.rs`, and the serialization protocol exercised by
`alloc_tests::recursive_self_types` in `src/rkyv/src/impls/mod.rs`.
Machine integers are modelled as `Nat` with explicit reduction modulo `2 ^ w`
at the points where the Rust code observes a fixed-width value.
-/

namespace Rkyv

/-- Modulus of the `u64` machine type. -/
def u64Mod : Nat := 2 ^ 64

/-- Modulus of the `u32` machine type. -/
def u32Mod : Nat := 2 ^ 32

/-- Modulus of the `u128` machine type. -/
def u128Mod : Nat := 2 ^ 128

/-- Constant `NANOS_PER_SEC` from `impls/core/time.rs`. -/
def NANOS_PER_SEC : Nat := 1000000000

/-- Constant `NANOS_PER_MILLI` from `impls/core/time.rs`. -/
def NANOS_PER_MILLI : Nat := 1000000

/-- Constant `NANOS_PER_MICRO` from `impls/core/time.rs`. -/
def NANOS_PER_MICRO : Nat := 1000

/-- Constant `MILLIS_PER_SEC` from `impls/core/time.rs`. -/
def MILLIS_PER_SEC : Nat := 1000

/-- Constant `MICROS_PER_SEC` from `impls/core/time.rs`. -/
def MICROS_PER_SEC : Nat := 1000000

/-- Model of `core::time::Duration`: a `u64` seconds field and a `u32`
nanoseconds field. The fields are `Nat`s; the `u64`/`u32` views are taken by
the accessors, and Rust's representability invariant (`secs < 2 ^ 64`,
`nanos < NANOS_PER_SEC`) appears as a hypothesis where a theorem needs it. -/
structure Duration where
  secs : Nat
  nanos : Nat
deriving DecidableEq

/-- The `u64` value of the seconds field of a `Duration`
(`Duration::as_secs`). -/
def Duration.as_secs (v : Duration) : Nat := v.secs % u64Mod

/-- The `u32` value of the nanoseconds field of a `Duration`
(`Duration::subsec_nanos`). -/
def Duration.subsec_nanos (v : Duration) : Nat := v.nanos % u32Mod

/-- Model of `core::time::Duration::new(secs, nanos)`: the whole-second carry
of `nanos` is added to `secs` with `checked_add`, and the constructor panics
(modelled as `none`) when that addition overflows `u64`. -/
def Duration.new (secs nanos : Nat) : Option Duration :=
  if secs % u64Mod + nanos % u32Mod / NANOS_PER_SEC < u64Mod then
    some ⟨secs % u64Mod + nanos % u32Mod / NANOS_PER_SEC, nanos % u32Mod % NANOS_PER_SEC⟩
  else
    none

/-- Model of `ArchivedDuration` from `impls/core/time.rs`: an archived `u64`
seconds field followed by an archived `u32` nanoseconds field. Any bit
pattern of the two fields is representable. -/
structure ArchivedDuration where
  secs : Nat
  nanos : Nat
deriving DecidableEq

/-- `ArchivedDuration::as_secs`: `from_archived!(self.secs)` as a `u64`. -/
def ArchivedDuration.as_secs (d : ArchivedDuration) : Nat := d.secs % u64Mod

/-- `ArchivedDuration::subsec_nanos`: `from_archived!(self.nanos)` as a
`u32`. -/
def ArchivedDuration.subsec_nanos (d : ArchivedDuration) : Nat := d.nanos % u32Mod

/-- `ArchivedDuration::subsec_millis`: `nanos / NANOS_PER_MILLI` in `u32`. -/
def ArchivedDuration.subsec_millis (d : ArchivedDuration) : Nat :=
  d.subsec_nanos / NANOS_PER_MILLI

/-- `ArchivedDuration::subsec_micros`: `nanos / NANOS_PER_MICRO` in `u32`. -/
def ArchivedDuration.subsec_micros (d : ArchivedDuration) : Nat :=
  d.subsec_nanos / NANOS_PER_MICRO

/-- `ArchivedDuration::as_millis`: `as_secs as u128 * MILLIS_PER_SEC +
subsec_nanos / NANOS_PER_MILLI`, with the `u128` operations reduced modulo
`2 ^ 128`. -/
def ArchivedDuration.as_millis (d : ArchivedDuration) : Nat :=
  (d.as_secs * MILLIS_PER_SEC % u128Mod + d.subsec_nanos / NANOS_PER_MILLI) % u128Mod

/-- `ArchivedDuration::as_micros`: `as_secs as u128 * MICROS_PER_SEC +
subsec_nanos / NANOS_PER_MICRO`, with the `u128` operations reduced modulo
`2 ^ 128`. -/
def ArchivedDuration.as_micros (d : ArchivedDuration) : Nat :=
  (d.as_secs * MICROS_PER_SEC % u128Mod + d.subsec_nanos / NANOS_PER_MICRO) % u128Mod

/-- `ArchivedDuration::as_nanos`: `as_secs as u128 * NANOS_PER_SEC +
subsec_nanos`, with the `u128` operations reduced modulo `2 ^ 128`. -/
def ArchivedDuration.as_nanos (d : ArchivedDuration) : Nat :=
  (d.as_secs * NANOS_PER_SEC % u128Mod + d.subsec_nanos) % u128Mod

/-- Model of `<Duration as Archive>::resolve`: the `secs` out-field receives
`self.as_secs()` and the `nanos` out-field receives `self.subsec_nanos()`. -/
def Duration.archive (v : Duration) : ArchivedDuration :=
  ⟨v.as_secs, v.subsec_nanos⟩

/-- Outcome of a Rust function returning `Result`: the `Ok` value, the `Err`
value, or a panic (divergence without returning either branch). -/
inductive RustOutcome (ε α : Type) where
  | ok : α → RustOutcome ε α
  | err : ε → RustOutcome ε α
  | panicked : RustOutcome ε α
deriving DecidableEq

/-- Model of `<Duration as Serialize<S>>::serialize`: the body is `Ok(())`;
the serializer state `s` is threaded through untouched. The resolver value in
the `ok` payload has type `Unit`, matching `type Resolver = ()`. -/
def Duration.serialize (ε σ : Type) (_v : Duration) (s : σ) :
    RustOutcome ε (Unit × σ) :=
  .ok ((), s)

/-- Model of `<ArchivedDuration as Deserialize<Duration, D>>::deserialize`:
`Ok(Duration::new(self.as_secs(), self.subsec_nanos()))`, where
`Duration::new` may panic on `u64` overflow of the seconds carry. -/
def ArchivedDuration.deserialize (ε δ : Type) (d : ArchivedDuration) (ctx : δ) :
    RustOutcome ε (Duration × δ) :=
  match Duration.new d.as_secs d.subsec_nanos with
  | some v => .ok (v, ctx)
  | none => .panicked

/-- Modelled from the spec: the primitive codec (§4.1) stores a `w`-byte
unsigned integer little-endian, least-significant byte first. The `rend`
primitive types backing `Archived<u64>` and `Archived<u32>` are not part of
the sampled source. -/
def leBytes : Nat → Nat → List Nat
  | 0, _ => []
  | w + 1, v => v % 256 :: leBytes w (v / 256)

/-- Modelled from the spec: the product layout (§4.6) places the `secs` field
and then the `nanos` field contiguously, so the archived `Duration` occupies
the 8 little-endian bytes of `secs` followed by the 4 little-endian bytes of
`nanos` (spec §8, scenario 1). -/
def ArchivedDuration.toLEBytes (d : ArchivedDuration) : List Nat :=
  leBytes 8 d.as_secs ++ leBytes 4 d.subsec_nanos

/-- Overwrite the bytes of `buf` at positions `[pos, pos + bytes.length)`
with `bytes`, leaving the rest of the buffer unchanged. -/
def writeBytesAt (buf : List Nat) (pos : Nat) (bytes : List Nat) : List Nat :=
  buf.take pos ++ bytes ++ buf.drop (pos + bytes.length)

/-- Model of `<Duration as Archive>::resolve` acting on a byte buffer: the 12
bytes of the archived value are written through the out place at `pos`, and
nothing else is touched. -/
def Duration.resolveAt (v : Duration) (buf : List Nat) (pos : Nat) : List Nat :=
  writeBytesAt buf pos v.archive.toLEBytes

theorem leBytes_length (w v : Nat) : (leBytes w v).length = w := by
  induction w generalizing v with
  | zero => rfl
  | succ n ih => simp [leBytes, ih]

theorem toLEBytes_length (d : ArchivedDuration) : d.toLEBytes.length = 12 := by
  simp [ArchivedDuration.toLEBytes, leBytes_length]

theorem writeBytesAt_spec (buf bytes : List Nat) (pos : Nat)
    (h : pos + bytes.length ≤ buf.length) :
    (writeBytesAt buf pos bytes).take pos = buf.take pos ∧
    ((writeBytesAt buf pos bytes).drop pos).take bytes.length = bytes ∧
    (writeBytesAt buf pos bytes).drop (pos + bytes.length) =
      buf.drop (pos + bytes.length) := by
  have hlen : (buf.take pos).length = pos := by
    simp [List.length_take]; omega
  unfold writeBytesAt
  rw [List.append_assoc]
  refine ⟨List.take_left' hlen, ?_, ?_⟩
  · rw [List.drop_left' hlen, List.take_left' rfl]
  · have hdd : (buf.take pos ++ (bytes ++ buf.drop (pos + bytes.length))).drop
        (pos + bytes.length) =
        ((buf.take pos ++ (bytes ++ buf.drop (pos + bytes.length))).drop pos).drop
          bytes.length := by
      rw [List.drop_drop]
    rw [hdd, List.drop_left' hlen, List.drop_left' rfl]

theorem as_secs_lt (d : ArchivedDuration) : d.as_secs < u64Mod :=
  Nat.mod_lt _ (by decide)

theorem subsec_nanos_lt (d : ArchivedDuration) : d.subsec_nanos < u32Mod :=
  Nat.mod_lt _ (by decide)

/-- C1: Round-trip identity for `Duration`: for every representable `Duration`
(`secs < 2 ^ 64`, `nanos < 1_000_000_000`), `resolve` stores `as_secs()` and
`subsec_nanos()` into the archived fields, and `deserialize` of the archived
value returns `Duration::new(as_secs(), subsec_nanos())`, which equals the
original value, for every deserializer context. -/
theorem c1_duration_roundtrip (ε δ : Type) (ctx : δ) (v : Duration)
    (hsecs : v.secs < u64Mod) (hnanos : v.nanos < NANOS_PER_SEC) :
    v.archive.secs = v.as_secs ∧ v.archive.nanos = v.subsec_nanos ∧
    v.archive.deserialize ε δ ctx = .ok (v, ctx) := by
  have hn32 : v.nanos < u32Mod := lt_trans hnanos (by decide)
  have hvs : v.as_secs = v.secs := Nat.mod_eq_of_lt hsecs
  have hvn : v.subsec_nanos = v.nanos := Nat.mod_eq_of_lt hn32
  refine ⟨rfl, rfl, ?_⟩
  unfold ArchivedDuration.deserialize
  have has : v.archive.as_secs = v.secs := by
    simp [Duration.archive, ArchivedDuration.as_secs, hvs, Nat.mod_eq_of_lt hsecs]
  have han : v.archive.subsec_nanos = v.nanos := by
    simp [Duration.archive, ArchivedDuration.subsec_nanos, hvn, Nat.mod_eq_of_lt hn32]
  rw [has, han]
  unfold Duration.new
  have hdiv : v.nanos % u32Mod / NANOS_PER_SEC = 0 := by
    rw [Nat.mod_eq_of_lt hn32]
    exact Nat.div_eq_of_lt hnanos
  rw [Nat.mod_eq_of_lt hsecs, Nat.mod_eq_of_lt hn32]
  have hcond : v.secs + v.nanos / NANOS_PER_SEC < u64Mod := by
    rw [Nat.div_eq_of_lt hnanos]; omega
  rw [if_pos (by rw [Nat.div_eq_of_lt hnanos]; omega)]
  have hplus : v.secs + v.nanos / NANOS_PER_SEC = v.secs := by
    rw [Nat.div_eq_of_lt hnanos]; omega
  rw [hplus, Nat.mod_eq_of_lt hnanos]

/-- C2: The archived form of `Duration { secs: 42, nanos: 123_456_789 }`
occupies 12 bytes, the first 8 being the little-endian `secs` value
`2A 00 00 00 00 00 00 00` and the next 4 the little-endian `nanos` value
`15 CD 5B 07`, laid out contiguously in that order. -/
theorem c2_duration_layout :
    (Duration.mk 42 123456789).archive.toLEBytes =
      [0x2A, 0, 0, 0, 0, 0, 0, 0, 0x15, 0xCD, 0x5B, 0x07] ∧
    (Duration.mk 42 123456789).archive.toLEBytes.length = 12 := by
  constructor <;> decide

/-- C5: `resolve` for `Duration` is a pure function of the source value and
the target place: the 12-byte region it writes equals `toLEBytes` of the
archived value regardless of the buffer contents or position, two
resolutions into different buffers and positions write identical regions,
and the bytes outside the written region are untouched. -/
theorem c5_resolve_pure (v : Duration) (b₁ b₂ : List Nat) (p₁ p₂ : Nat)
    (h₁ : p₁ + 12 ≤ b₁.length) (h₂ : p₂ + 12 ≤ b₂.length) :
    ((v.resolveAt b₁ p₁).drop p₁).take 12 = v.archive.toLEBytes ∧
    ((v.resolveAt b₁ p₁).drop p₁).take 12 = ((v.resolveAt b₂ p₂).drop p₂).take 12 ∧
    (v.resolveAt b₁ p₁).take p₁ = b₁.take p₁ ∧
    (v.resolveAt b₁ p₁).drop (p₁ + 12) = b₁.drop (p₁ + 12) := by
  have hl := toLEBytes_length v.archive
  have w₁ := writeBytesAt_spec b₁ v.archive.toLEBytes p₁ (by omega)
  have w₂ := writeBytesAt_spec b₂ v.archive.toLEBytes p₂ (by omega)
  rw [hl] at w₁ w₂
  have r₁ : ((v.resolveAt b₁ p₁).drop p₁).take 12 = v.archive.toLEBytes := by
    unfold Duration.resolveAt
    exact w₁.2.1
  refine ⟨r₁, ?_, w₁.1, w₁.2.2⟩
  rw [r₁]
  unfold Duration.resolveAt
  exact (w₂.2.1).symm

/-- Witness for C5 at `Duration { secs: 1, nanos: 2 }`, a 12-byte zero buffer
at position 0 and a 20-byte buffer of `7`s at position 3. -/
theorem c5_resolve_pure_witness :
    (((Duration.mk 1 2).resolveAt (List.replicate 12 0) 0).drop 0).take 12 =
      (Duration.mk 1 2).archive.toLEBytes ∧
    (((Duration.mk 1 2).resolveAt (List.replicate 12 0) 0).drop 0).take 12 =
      (((Duration.mk 1 2).resolveAt (List.replicate 20 7) 3).drop 3).take 12 ∧
    ((Duration.mk 1 2).resolveAt (List.replicate 12 0) 0).take 0 =
      (List.replicate 12 0).take 0 ∧
    ((Duration.mk 1 2).resolveAt (List.replicate 12 0) 0).drop (0 + 12) =
      (List.replicate 12 0).drop (0 + 12) :=
  c5_resolve_pure ⟨1, 2⟩ (List.replicate 12 0) (List.replicate 20 7) 0 3
    (by decide) (by decide)

/-- C6: `Duration`'s resolver is the unit value and serializing a `Duration`
has no effect on the serializer: for every serializer state `s` and error
type, `serialize` returns `Ok(())` and leaves `s` unchanged. -/
theorem c6_leaf_serialize_noop (ε σ : Type) (v : Duration) (s : σ) :
    Duration.serialize ε σ v s = .ok ((), s) := rfl

/-- Witness for C1 at `Duration { secs: 42, nanos: 123_456_789 }`. -/
theorem c1_duration_roundtrip_witness :
    (Duration.mk 42 123456789).archive.secs = (Duration.mk 42 123456789).as_secs ∧
    (Duration.mk 42 123456789).archive.nanos = (Duration.mk 42 123456789).subsec_nanos ∧
    (Duration.mk 42 123456789).archive.deserialize Unit Unit () =
      .ok (Duration.mk 42 123456789, ()) :=
  c1_duration_roundtrip Unit Unit () ⟨42, 123456789⟩ (by decide) (by decide)

/-- C3: Accessors of the archived form of
`Duration { secs: 42, nanos: 123_456_789 }` return `as_secs() = 42`,
`subsec_nanos() = 123_456_789` and `as_nanos() = 42_123_456_789`; and for
every `ArchivedDuration` bit pattern, `as_nanos` equals
`as_secs * 1_000_000_000 + subsec_nanos` computed exactly (the `u128`
arithmetic does not overflow). -/
theorem c3_accessor_values :
    (Duration.mk 42 123456789).archive.as_secs = 42 ∧
    (Duration.mk 42 123456789).archive.subsec_nanos = 123456789 ∧
    (Duration.mk 42 123456789).archive.as_nanos = 42123456789 ∧
    ∀ d : ArchivedDuration, d.as_nanos = d.as_secs * NANOS_PER_SEC + d.subsec_nanos := by
  refine ⟨by decide, by decide, by decide, fun d => ?_⟩
  have h1 := as_secs_lt d
  have h2 := subsec_nanos_lt d
  unfold ArchivedDuration.as_nanos
  have hmul : d.as_secs * NANOS_PER_SEC < u128Mod := by
    unfold u64Mod at h1; unfold u128Mod NANOS_PER_SEC; omega
  rw [Nat.mod_eq_of_lt hmul, Nat.mod_eq_of_lt]
  unfold u64Mod at h1; unfold u32Mod at h2; unfold u128Mod NANOS_PER_SEC
  unfold NANOS_PER_SEC at hmul; unfold u128Mod at hmul
  omega

/-- C8 counterexample: at the bit pattern `secs = u64::MAX`,
`nanos = u32::MAX`, `deserialize` panics inside `Duration::new` (the seconds
carry `u32::MAX / 1_000_000_000 = 4` overflows `u64`), so it does not return
`Ok` for every `ArchivedDuration` bit pattern. -/
theorem c8_deserialize_panics :
    ArchivedDuration.deserialize Unit Unit ⟨2 ^ 64 - 1, 2 ^ 32 - 1⟩ () = .panicked := by
  decide

/-- C8 (amended): `serialize` returns `Ok(())` and leaves the serializer
unchanged for every `Duration` and every serializer context; `deserialize`
returns `Ok` for every deserializer context and every `ArchivedDuration`
whose nanoseconds field is below `1_000_000_000` (which includes every
archived value produced by `resolve` from a native `Duration`). -/
theorem c8_infallible_amended (ε σ δ : Type) (v : Duration) (s : σ) (ctx : δ)
    (d : ArchivedDuration) (hn : d.subsec_nanos < NANOS_PER_SEC) :
    Duration.serialize ε σ v s = .ok ((), s) ∧
    ∃ w : Duration, d.deserialize ε δ ctx = .ok (w, ctx) := by
  refine ⟨rfl, ?_⟩
  unfold ArchivedDuration.deserialize
  have h1 := as_secs_lt d
  have hdiv : d.subsec_nanos % u32Mod / NANOS_PER_SEC = 0 := by
    have : d.subsec_nanos % u32Mod = d.subsec_nanos :=
      Nat.mod_eq_of_lt (subsec_nanos_lt d)
    rw [this]
    exact Nat.div_eq_of_lt hn
  unfold Duration.new
  rw [hdiv]
  have hs : d.as_secs % u64Mod = d.as_secs := Nat.mod_eq_of_lt h1
  rw [hs, if_pos (by omega)]
  exact ⟨_, rfl⟩

/-- Witness for C8 (amended) at `Duration { secs: 1, nanos: 2 }` and the
archived pattern `secs = 5`, `nanos = 7`. -/
theorem c8_infallible_amended_witness :
    Duration.serialize Unit Unit ⟨1, 2⟩ () = .ok ((), ()) ∧
    ∃ w : Duration,
      ArchivedDuration.deserialize Unit Unit ⟨5, 7⟩ () = .ok (w, ()) :=
  c8_infallible_amended Unit Unit Unit ⟨1, 2⟩ () () ⟨5, 7⟩ (by decide)

/-- C9: Accessor coherence: for every `ArchivedDuration` bit pattern,
`as_millis = as_secs * 1000 + subsec_millis` and
`as_micros = as_secs * 1_000_000 + subsec_micros`, computed exactly (the
`u128` arithmetic does not overflow). -/
theorem c9_accessor_coherence (d : ArchivedDuration) :
    d.as_millis = d.as_secs * MILLIS_PER_SEC + d.subsec_millis ∧
    d.as_micros = d.as_secs * MICROS_PER_SEC + d.subsec_micros := by
  have h1 := as_secs_lt d
  have h2 := subsec_nanos_lt d
  unfold u64Mod at h1; unfold u32Mod at h2
  constructor
  · unfold ArchivedDuration.as_millis ArchivedDuration.subsec_millis
    have hmul : d.as_secs * MILLIS_PER_SEC < u128Mod := by
      unfold u128Mod MILLIS_PER_SEC; omega
    rw [Nat.mod_eq_of_lt hmul, Nat.mod_eq_of_lt]
    unfold u128Mod MILLIS_PER_SEC NANOS_PER_MILLI
    unfold MILLIS_PER_SEC u128Mod at hmul
    omega
  · unfold ArchivedDuration.as_micros ArchivedDuration.subsec_micros
    have hmul : d.as_secs * MICROS_PER_SEC < u128Mod := by
      unfold u128Mod MICROS_PER_SEC; omega
    rw [Nat.mod_eq_of_lt hmul, Nat.mod_eq_of_lt]
    unfold u128Mod MICROS_PER_SEC NANOS_PER_MICRO
    unfold MICROS_PER_SEC u128Mod at hmul
    omega

/-- C10: For every `ArchivedDuration` whose nanoseconds field is below
`1_000_000_000`, `subsec_millis < 1000`, `subsec_micros < 1_000_000` and
`subsec_nanos < 1_000_000_000`; and at the unnormalized pattern
`nanos = u32::MAX` all three bounds fail. -/
theorem c10_subsec_bounds (d : ArchivedDuration)
    (hn : d.subsec_nanos < NANOS_PER_SEC) :
    (d.subsec_millis < 1000 ∧ d.subsec_micros < 1000000 ∧
      d.subsec_nanos < 1000000000) ∧
    (1000 ≤ (ArchivedDuration.mk 0 4294967295).subsec_millis ∧
      1000000 ≤ (ArchivedDuration.mk 0 4294967295).subsec_micros ∧
      1000000000 ≤ (ArchivedDuration.mk 0 4294967295).subsec_nanos) := by
  refine ⟨⟨?_, ?_, ?_⟩, by decide, by decide, by decide⟩
  · unfold ArchivedDuration.subsec_millis NANOS_PER_MILLI
    unfold NANOS_PER_SEC at hn
    omega
  · unfold ArchivedDuration.subsec_micros NANOS_PER_MICRO
    unfold NANOS_PER_SEC at hn
    omega
  · unfold NANOS_PER_SEC at hn
    omega

/-- Witness for C10 at the archived form of
`Duration { secs: 42, nanos: 123_456_789 }`. -/
theorem c10_subsec_bounds_witness :
    ((Duration.mk 42 123456789).archive.subsec_millis < 1000 ∧
      (Duration.mk 42 123456789).archive.subsec_micros < 1000000 ∧
      (Duration.mk 42 123456789).archive.subsec_nanos < 1000000000) ∧
    (1000 ≤ (ArchivedDuration.mk 0 4294967295).subsec_millis ∧
      1000000 ≤ (ArchivedDuration.mk 0 4294967295).subsec_micros ∧
      1000000000 ≤ (ArchivedDuration.mk 0 4294967295).subsec_nanos) :=
  c10_subsec_bounds ((Duration.mk 42 123456789).archive) (by decide)

/-- Endianness feature configuration of a build (`lib.rs` feature flags). -/
structure Features where
  little_endian : Bool
  big_endian : Bool
deriving DecidableEq

/-- A diagnostic produced while compiling a build configuration: either the
message of a recognized diagnostic invocation, or a resolution failure for an
invocation whose name does not exist. -/
inductive Diagnostic where
  | message : String → Diagnostic
  | unknownInvocation : String → Diagnostic
deriving DecidableEq

/-- The compile-time diagnostic invocations that `core` actually provides. -/
def knownDiagnosticNames : List String := ["compile_error"]

/-- Invoking a diagnostic by name: a recognized name emits its message; an
unrecognized name fails resolution, still aborting the build but without the
written message. -/
def invokeDiagnostic (name msg : String) : Diagnostic :=
  if name ∈ knownDiagnosticNames then .message msg else .unknownInvocation name

/-- The explanatory message written at `lib.rs` lines 230-234 for the
endianness conflict. -/
def endianConflictMsg : String :=
  "little_endian and big_endian are mutually-exclusive features. You may need to set default-features = false or compile with --no-default-features."

/-- Model of the endianness feature-flag check at `lib.rs` lines 229-234: when
both endianness features are enabled, the source invokes
`core::compiler_error!` (a name that does not exist in `core`; the adjacent
pointer-width checks use `core::compile_error!`). -/
def endiannessCheck (f : Features) : List Diagnostic :=
  if f.little_endian && f.big_endian then
    [invokeDiagnostic "compiler_error" endianConflictMsg]
  else
    []

/-- C7: At the failing configuration with both endianness features enabled,
the check in `lib.rs` invokes the nonexistent `core::compiler_error!`: the
build is still rejected (a diagnostic is produced), but it is a
name-resolution failure, not the written message explaining the conflict —
contradicting the claim that the conflict is rejected with a diagnostic
explaining it. -/
theorem c7_endianness_check_bug :
    endiannessCheck ⟨true, true⟩ =
      [Diagnostic.unknownInvocation "compiler_error"] ∧
    Diagnostic.message endianConflictMsg ∉ endiannessCheck ⟨true, true⟩ ∧
    endiannessCheck ⟨true, true⟩ ≠ [] ∧
    endiannessCheck ⟨true, false⟩ = [] ∧
    endiannessCheck ⟨false, true⟩ = [] := by
  refine ⟨rfl, ?_, by decide, rfl, rfl⟩
  intro h
  simp [endiannessCheck, invokeDiagnostic, knownDiagnosticNames] at h

/-- The `LinkedList<i32>` type from `alloc_tests::recursive_self_types` in
`impls/mod.rs`: either `Empty` or a `Node` with an `i32` value (modelled as a
`Nat` bit pattern) and a boxed tail. -/
inductive LinkedListI32 where
  | empty : LinkedListI32
  | node : Nat → LinkedListI32 → LinkedListI32
deriving DecidableEq

/-- Representability of a `LinkedListI32`: every node value fits in 32 bits. -/
def LinkedListI32.wfb : LinkedListI32 → Bool
  | .empty => true
  | .node v next => decide (v < u32Mod) && next.wfb

/-- The archived form of `LinkedListI32`: the structural image of the source
list, with each node value stored as its 32-bit pattern. -/
inductive ArchivedLinkedListI32 where
  | empty : ArchivedLinkedListI32
  | node : Nat → ArchivedLinkedListI32 → ArchivedLinkedListI32
deriving DecidableEq

/-- Structural archiving of a `LinkedListI32`: each node value is stored as
its 32-bit pattern and the boxed tail is archived behind a relative pointer
(positions are tracked separately by `serializeLL`). -/
def LinkedListI32.archive : LinkedListI32 → ArchivedLinkedListI32
  | .empty => .empty
  | .node v next => .node (v % u32Mod) next.archive

/-- Deserialization of an archived list back to a native list, following the
derived `Deserialize` implementation structurally. -/
def ArchivedLinkedListI32.deserialize : ArchivedLinkedListI32 → LinkedListI32
  | .empty => .empty
  | .node v next => .node v next.deserialize

/-- Serializer state for the position-tracking writer: the current length of
the buffer and the list of emitted relative pointers, each recorded as
`(cell address, target position)`. -/
structure SerializerState where
  pos : Nat
  relPtrs : List (Nat × Nat)
deriving DecidableEq

/-- Round `p` up to the next multiple of `a`. -/
def alignUp (p a : Nat) : Nat := p + (a - p % a) % a

/-- Modelled from the spec: alignment of the archived list node in scenario 4
of §8 (the `Node` following the 1-byte `Empty` is written at position 8). -/
def nodeAlign : Nat := 8

/-- Modelled from the spec: size in bytes of an archived `Node` (tag, padding,
`i32` value, 32-bit relative pointer). -/
def nodeSize : Nat := 12

/-- Modelled from the spec: byte offset of the boxed-tail relative pointer
cell within an archived `Node` (`offset_of(box)` in scenario 4 of §8). -/
def offsetOfBox : Nat := 8

/-- Modelled from the spec: size in bytes of the archived `Empty` (scenario 4
of §8 writes it as a single byte at position 0). -/
def emptySize : Nat := 1

/-- Modelled from the spec: the resolve/serialize ordering protocol of §4.6
applied to `LinkedListI32` (the derive-generated serializer glue is not part
of the sampled source). Serializing a list as a box pointee first serializes
and writes its own boxed tail, then writes the list's bytes at the next
aligned position; a node's relative-pointer cell at `offsetOfBox` records the
already-written tail position as its target. Returns the new serializer
state and the position at which this value was written. -/
def serializeLL : LinkedListI32 → SerializerState → SerializerState × Nat
  | .empty, s => (⟨s.pos + emptySize, s.relPtrs⟩, s.pos)
  | .node _ next, s =>
    let r := serializeLL next s
    let p := alignUp r.1.pos nodeAlign
    (⟨p + nodeSize, (p + offsetOfBox, r.2) :: r.1.relPtrs⟩, p)

/-- Modelled from the spec: `to_bytes` starts from an empty writer and writes
the root last; the returned position is the root position. -/
def toBytesLL (l : LinkedListI32) : SerializerState × Nat := serializeLL l ⟨0, []⟩

/-- The signed offset stored in a relative-pointer cell: target position
minus the cell's own position. -/
def relOffset (cell target : Nat) : Int := (target : Int) - (cell : Int)

theorem alignUp_ge (p a : Nat) : p ≤ alignUp p a := Nat.le_add_right _ _

theorem serializeLL_pos (l : LinkedListI32) (s : SerializerState) :
    s.pos ≤ (serializeLL l s).2 ∧ (serializeLL l s).2 < (serializeLL l s).1.pos := by
  induction l generalizing s with
  | empty => simp [serializeLL, emptySize]
  | node v next ih =>
    have h := ih s
    simp only [serializeLL]
    constructor
    · exact le_trans (le_trans h.1 (le_of_lt h.2)) (alignUp_ge _ _)
    · simp [nodeSize]

theorem serializeLL_relPtrs_back (l : LinkedListI32) (s : SerializerState)
    (hs : ∀ q ∈ s.relPtrs, q.2 < q.1) :
    ∀ q ∈ (serializeLL l s).1.relPtrs, q.2 < q.1 := by
  induction l generalizing s with
  | empty => simpa [serializeLL] using hs
  | node v next ih =>
    intro q hq
    simp only [serializeLL, List.mem_cons] at hq
    rcases hq with hq | hq
    · subst hq
      have h := serializeLL_pos next s
      have : (serializeLL next s).2 < alignUp (serializeLL next s).1.pos nodeAlign :=
        lt_of_lt_of_le h.2 (alignUp_ge _ _)
      simp only []
      omega
    · exact ih s hs q hq

theorem archive_deserialize_id (l : LinkedListI32) (hl : l.wfb = true) :
    l.archive.deserialize = l := by
  induction l with
  | empty => rfl
  | node v next ih =>
    simp only [LinkedListI32.wfb, Bool.and_eq_true, decide_eq_true_eq] at hl
    simp only [LinkedListI32.archive, ArchivedLinkedListI32.deserialize]
    exact congrArg₂ LinkedListI32.node (Nat.mod_eq_of_lt hl.1) (ih hl.2)

/-- C4: Pointee precedes pointer: starting from any serializer state whose
recorded relative pointers already point backwards, every relative pointer
emitted by serializing a `LinkedListI32` has its target strictly before the
pointer cell (no forward references); the round trip of a representable list
equals the input; and serializing
`Node { val: 42, next: Box(Node { val: 100, next: Box(Empty) }) }` writes the
inner `Empty` at position 0, `Node(100)` at position 8 with its box cell at
16 targeting 0 — stored offset `0 − (8 + offset_of(box))` — and the root last
at position 24 with its box cell at 32 targeting 8. -/
theorem c4_pointee_precedes_pointer (l : LinkedListI32) (s : SerializerState)
    (hs : ∀ q ∈ s.relPtrs, q.2 < q.1) (hl : l.wfb = true) :
    (∀ q ∈ (serializeLL l s).1.relPtrs, q.2 < q.1) ∧
    l.archive.deserialize = l ∧
    toBytesLL (.node 42 (.node 100 .empty)) = (⟨36, [(32, 8), (16, 0)]⟩, 24) ∧
    relOffset 16 0 = 0 - ((8 : Int) + (offsetOfBox : Int)) := by
  refine ⟨serializeLL_relPtrs_back l s hs, archive_deserialize_id l hl, by decide, by decide⟩

/-- Witness for C4 at the two-node list from `recursive_self_types`, starting
from the empty serializer state. -/
theorem c4_pointee_precedes_pointer_witness :
    (∀ q ∈ (serializeLL (.node 42 (.node 100 .empty)) ⟨0, []⟩).1.relPtrs,
      q.2 < q.1) ∧
    (LinkedListI32.node 42 (.node 100 .empty)).archive.deserialize =
      .node 42 (.node 100 .empty) ∧
    toBytesLL (.node 42 (.node 100 .empty)) = (⟨36, [(32, 8), (16, 0)]⟩, 24) ∧
    relOffset 16 0 = 0 - ((8 : Int) + (offsetOfBox : Int)) :=
  c4_pointee_precedes_pointer (.node 42 (.node 100 .empty)) ⟨0, []⟩
    (by intro q hq; simp at hq) (by decide)

end Rkyv
